import Mathlib

/-!
A shallow embedding of `scraper.py` (pokellector card downloader).

Network traffic is modelled by an oracle (`World`) mapping each request to
either a parsed page (`Except.ok`) or a network failure (`Except.error`),
mirroring the `try: requests.get ... except:` structure of the source.
Parsed HTML is modelled by the `Page` structure: the lists of anchors, divs,
meta tags and img tags that BeautifulSoup queries in the source touch.
Console prints and filesystem effects are recorded as an `Ev` event list.
-/

/-- Model of an `<img>` element: its optional `src` attribute. -/
structure Img where
  src? : Option String
  deriving DecidableEq, Repr

/-- Model of a `<meta>` element: optional `property`, `itemprop` and `content`
attributes. -/
structure MetaTag where
  prop? : Option String
  itemprop? : Option String
  content? : Option String
  deriving DecidableEq, Repr

/-- Model of a `<div>` element: its class list and the img elements inside it
(in document order). -/
structure DivTag where
  classes : List String
  imgs : List Img
  deriving DecidableEq, Repr

/-- Model of an `<a href=...>` element. -/
structure Anchor where
  href : String
  deriving DecidableEq, Repr

/-- Model of a parsed HTML document: exactly the element collections the
source queries (`soup.find_all('a', href=True)`, `soup.find('div',
class_='card')`, `soup.find('meta', ...)`, `soup.find_all('img')`). `imgs` is
the full-document img list scanned by fallback tier 3. -/
structure Page where
  anchors : List Anchor
  divs : List DivTag
  metas : List MetaTag
  imgs : List Img
  deriving DecidableEq, Repr

/-- Does `pat` occur at the head of the list? -/
def patAt : List Char → List Char → Bool
  | [], _ => true
  | _ :: _, [] => false
  | p :: ps, c :: cs => p == c && patAt ps cs

/-- Does `pat` occur anywhere in the list? -/
def occursIn (pat : List Char) : List Char → Bool
  | [] => pat.isEmpty
  | c :: cs => patAt pat (c :: cs) || occursIn pat cs

/-- Python's substring test `pat in s`. -/
def containsSub (s pat : String) : Bool :=
  occursIn pat.data s.data

/-- Fueled worker for `strSplitOn`: split on the nonempty separator
`s0 :: srest`, accumulating the current piece in reverse. The fuel is always
at least the length of the remaining list, so the fuel-out arm is never
reached. -/
def splitAuxF (s0 : Char) (srest : List Char) :
    Nat → List Char → List Char → List (List Char)
  | 0, l, acc => [acc.reverse ++ l]
  | _ + 1, [], acc => [acc.reverse]
  | f + 1, c :: cs, acc =>
    if c == s0 && patAt srest cs then
      acc.reverse :: splitAuxF s0 srest f (cs.drop srest.length) []
    else splitAuxF s0 srest f cs (c :: acc)

/-- Python's `s.split(sep)` for a nonempty separator (also the behaviour of
`str.split` with an explicit separator: `"##".split("#") == ['', '', '']`). -/
def strSplitOn (s sep : String) : List String :=
  match sep.data with
  | [] => [s]
  | s0 :: srest => (splitAuxF s0 srest s.data.length s.data []).map String.mk

/-- Python's `s.strip()`: drop whitespace from both ends. -/
def pyStrip (s : String) : String :=
  String.mk
    (((s.data.dropWhile Char.isWhitespace).reverse.dropWhile
      Char.isWhitespace).reverse)

/-- ASCII lowercase of one character (`str.lower()` restricted to ASCII,
which is all the extension comparison of the source needs). -/
def lowerChar (c : Char) : Char :=
  if 'A' ≤ c && c ≤ 'Z' then Char.ofNat (c.toNat + 32) else c

/-- `s.lower()` over ASCII characters. -/
def strToLower (s : String) : String :=
  String.mk (s.data.map lowerChar)

/-- `'den-cards.pokellector.com' in src` (`scraper.py` lines 57, 64, 69, 75). -/
def domainOk (src : String) : Bool :=
  containsSub src "den-cards.pokellector.com"

/-- `src.split('.')[-1].lower() in ('png', 'jpg', 'jpeg', 'webp')`
(`scraper.py` lines 57, 75). -/
def extOk (src : String) : Bool :=
  (["png", "jpg", "jpeg", "webp"] : List String).contains
    (strToLower ((strSplitOn src ".").getLastD ""))

/-- Tier 1 of `get_card_image_url` (lines 52-58): the first `div` with class
`card`, its first `img`, accepted if its `src` is nonempty, on the expected
domain, and has a recognized extension. -/
def tier1 (page : Page) : Option String :=
  match page.divs.find? (fun d => d.classes.contains "card") with
  | none => none
  | some d =>
    match d.imgs.head? with
    | none => none
    | some img =>
      let src := img.src?.getD ""
      if src != "" && domainOk src && extOk src then some src else none

/-- The acceptance test both meta-tag probes of tier 2 share:
`if meta and meta.get('content'):` then `if 'den-cards...' in src: return src`
(lines 62-65 and 67-70). -/
def metaAccept (m? : Option MetaTag) : Option String :=
  match m? with
  | none => none
  | some m =>
    match m.content? with
    | none => none
    | some c => if c != "" && domainOk c then some c else none

/-- Tier 2 of `get_card_image_url` (lines 61-70): the `og:image` meta tag,
then the `itemprop=image` meta tag; content accepted if present, truthy and on
the expected domain (no extension check). -/
def tier2 (page : Page) : Option String :=
  match metaAccept (page.metas.find? (fun m => m.prop? == some "og:image")) with
  | some c => some c
  | none =>
    metaAccept (page.metas.find? (fun m => m.itemprop? == some "image"))

/-- Tier 3 of `get_card_image_url` (lines 73-76): scan every img on the page
for a domain-and-extension match. -/
def tier3 (page : Page) : Option String :=
  (page.imgs.map (fun i => i.src?.getD "")).find?
    (fun src => domainOk src && extOk src)

/-- The extraction part of `get_card_image_url` (lines 48-78), applied to a
successfully fetched and parsed detail page. -/
def extractImageURL (page : Page) : Option String :=
  match tier1 page with
  | some u => some u
  | none =>
    match tier2 page with
    | some u => some u
    | none => tier3 page

/-- `get_card_image_url` (lines 35-78): a failed fetch of the card page
returns `None` (lines 42-47); otherwise the three-tier extraction runs on the
parsed markup. -/
def get_card_image_url (resp : Except String Page) : Option String :=
  match resp with
  | Except.error _ => none
  | Except.ok page => extractImageURL page

/-- `'-Card-'` occurring at the head of the list, followed by at least one
character other than `'#'` (the `-Card-[^#]+` tail of the link regex). -/
def hasCardAt : List Char → Bool
  | '-' :: 'C' :: 'a' :: 'r' :: 'd' :: '-' :: c :: _ => c != '#'
  | _ => false

/-- Scan for `[^/]+-Card-[^#]+` from the current position: at least one
non-`'/'` character, then `-Card-`, then one non-`'#'` character. -/
def cardSearch : List Char → Bool
  | [] => false
  | c :: rest => if c == '/' then false else (hasCardAt rest || cardSearch rest)

/-- `re.match(r'^/[^/]+-Expansion/[^/]+-Card-[^#]+', href)` (line 28).
Since `[^/]` excludes `'/'` and the literal `-Expansion/` ends in `'/'`, the
first segment after the leading slash must be `t ++ "-Expansion"` with `t`
nonempty; the rest of the pattern is `cardSearch` on the remainder. -/
def matchesCardHref (href : String) : Bool :=
  match href.data with
  | '/' :: rest =>
    let seg1 := rest.takeWhile (fun c => c != '/')
    match rest.dropWhile (fun c => c != '/') with
    | '/' :: rest3 =>
      ("-Expansion".data.isSuffixOf seg1) && decide (11 ≤ seg1.length)
        && cardSearch rest3
    | _ => false
  | _ => false

/-- `href.split('#')[0]` (line 29). -/
def stripFragment (href : String) : String :=
  (strSplitOn href "#").headD ""

/-- One iteration of the link-collection loop of `search_pokemon_cards`
(lines 26-32): keep hrefs matching the card-link regex, strip the fragment,
prepend the site prefix, and skip URLs already collected. -/
def searchStep (acc : List String) (a : Anchor) : List String :=
  if matchesCardHref a.href then
    let full := "https://www.pokellector.com" ++ stripFragment a.href
    if full ∈ acc then acc else acc ++ [full]
  else acc

/-- `search_pokemon_cards` (lines 9-33): a failed fetch returns `[]`
(lines 18-23); otherwise the anchors of the parsed page are folded through
`searchStep`. -/
def search_pokemon_cards (resp : Except String Page) : List String :=
  match resp with
  | Except.error _ => []
  | Except.ok page => page.anchors.foldl searchStep []

/-- Value of a decimal digit character. -/
def digitVal (c : Char) : Nat := c.toNat - '0'.toNat

/-- Numeric value of a digit run. -/
def digitsToNat (ds : List Char) : Nat :=
  ds.foldl (fun n c => n * 10 + digitVal c) 0

/-- `re.search(r'[?&]p=(\d+)', href)` (line 116): at each position in turn,
look for `'?'` or `'&'` followed by `p=` and a maximal nonempty digit run. -/
def pNumSearch : List Char → Option Nat
  | [] => none
  | c :: rest =>
    if c == '?' || c == '&' then
      match rest with
      | 'p' :: '=' :: rest2 =>
        let ds := rest2.takeWhile Char.isDigit
        if ds.isEmpty then pNumSearch rest else some (digitsToNat ds)
      | _ => pNumSearch rest
    else pNumSearch rest

/-- The per-link page-number extraction of `get_total_pages` (lines 114-119):
the substring precheck `'?p=' in href or '&p=' in href`, then the regex
search. -/
def anchorPageNum (href : String) : Option Nat :=
  if containsSub href "?p=" || containsSub href "&p=" then
    pNumSearch href.data
  else none

/-- All page numbers observed across a page's links, in order. -/
def observedNums (page : Page) : List Nat :=
  page.anchors.filterMap (fun a => anchorPageNum a.href)

/-- `get_total_pages` (lines 98-122): `0` on a failed fetch (lines 105-110),
otherwise a fold starting from `max_page = 1` taking the max over every link
carrying a page-number parameter. -/
def get_total_pages (resp : Except String Page) : Nat :=
  match resp with
  | Except.error _ => 0
  | Except.ok page =>
    page.anchors.foldl
      (fun mx a =>
        match anchorPageNum a.href with
        | some n => max mx n
        | none => mx) 1

/-- `download_image` (lines 80-96): a failed fetch returns `False` with no
file written (lines 87-92); a successful fetch writes the body to
`output_path` and returns `True`. The written file is returned as a
`(path, bytes)` pair. -/
def download_image (resp : Except String (List Nat)) (output_path : String) :
    Bool × Option (String × List Nat) :=
  match resp with
  | Except.error _ => (false, none)
  | Except.ok content => (true, some (output_path, content))

/-- The request record built by the page fetches (lines 19, 43, 106):
a fixed user-agent header, no streaming, a 10-second timeout. -/
structure HttpRequest where
  url : String
  hasUserAgent : Bool
  stream : Bool
  timeoutSecs : Option Nat
  deriving DecidableEq, Repr

/-- The `requests.get` call of `search_pokemon_cards` / `get_card_image_url` /
`get_total_pages` (lines 19, 43, 106): `timeout=10`, not streamed. -/
def pageRequest (url : String) : HttpRequest :=
  { url := url, hasUserAgent := true, stream := false, timeoutSecs := some 10 }

/-- The `requests.get` call of `download_image` (line 88):
`stream=True, timeout=10`. -/
def imageRequest (url : String) : HttpRequest :=
  { url := url, hasUserAgent := true, stream := true, timeoutSecs := some 10 }

/-- Console/filesystem/network events of a run, in order. -/
inductive Ev where
  | evPagFetch : String → Ev
  | evNoResults : Ev
  | evSearch : Nat → Ev
  | evFetchCard : String → Ev
  | evNoImage : String → Ev
  | evSkip : String → Ev
  | evFetchImage : String → Ev
  | evWrote : String → Ev
  | evFailed : String → Ev
  | evReport : Nat → Ev
  | evPrompt : String → Ev
  | evInvalid : String → Ev
  | evExit : Ev
  | evEOF : Ev
  | evFuelOut : Ev
  deriving DecidableEq, Repr

/-- The deterministic remote state: each request site of the source is an
oracle from its argument to a fetch outcome. -/
structure World where
  pagination : String → Except String Page
  searchPg : String → Nat → Except String Page
  cardPage : String → Except String Page
  imageResp : String → Except String (List Nat)

/-- State threaded through the card loop of `download_pokemon_cards`:
the filenames present in the output directory, the `downloaded` counter, and
the event trace. -/
structure DlState where
  fs : List String
  downloaded : Nat
  events : List Ev
  deriving DecidableEq, Repr

/-- `image_url.split('/')[-1]` (line 148). -/
def imageFilename (image_url : String) : String :=
  (strSplitOn image_url "/").getLastD ""

/-- One iteration of the card loop (lines 143-163): fetch the detail page and
extract the image URL; on success, skip if the target filename already
exists, otherwise attempt the download; always end with the (mis-indented)
`Complete!` report print of line 163. -/
def processCard (w : World) (st : DlState) (card_url : String) : DlState :=
  match get_card_image_url (w.cardPage card_url) with
  | none =>
    ⟨st.fs, st.downloaded,
      st.events ++ [Ev.evFetchCard card_url, Ev.evNoImage card_url,
        Ev.evReport st.downloaded]⟩
  | some image_url =>
    let filename := imageFilename image_url
    if filename ∈ st.fs then
      ⟨st.fs, st.downloaded,
        st.events ++ [Ev.evFetchCard card_url, Ev.evSkip filename,
          Ev.evReport st.downloaded]⟩
    else
      if (download_image (w.imageResp image_url) filename).fst then
        ⟨st.fs ++ [filename], st.downloaded + 1,
          st.events ++ [Ev.evFetchCard card_url, Ev.evFetchImage image_url,
            Ev.evWrote filename, Ev.evReport (st.downloaded + 1)]⟩
      else
        ⟨st.fs, st.downloaded,
          st.events ++ [Ev.evFetchCard card_url, Ev.evFetchImage image_url,
            Ev.evFailed filename, Ev.evReport st.downloaded]⟩

/-- Lexicographic (code-point) order on char lists, Python's string order. -/
def charListLe : List Char → List Char → Bool
  | [], _ => true
  | _ :: _, [] => false
  | a :: as, b :: bs =>
    decide (a.toNat < b.toNat) || (a == b && charListLe as bs)

/-- `x <= y` on strings, by code points. -/
def strLe (x y : String) : Bool :=
  charListLe x.data y.data

/-- Insertion into a `strLe`-sorted list of strings. -/
def insertSorted (x : String) : List String → List String
  | [] => [x]
  | y :: ys => if strLe x y then x :: y :: ys else y :: insertSorted x ys

/-- `sorted(...)` on strings (line 143), via insertion sort. -/
def sortStrings (l : List String) : List String :=
  l.foldr insertSorted []

/-- The page-scraping loop of `download_pokemon_cards` (lines 135-143): the
search results of pages `1..tp` merged into a set (modelled by `dedup`,
keeping first occurrences) and then sorted (`sorted(all_card_urls)`). -/
def collectedUrls (w : World) (name : String) (tp : Nat) : List String :=
  sortStrings
    (((List.range tp).map
      (fun i => search_pokemon_cards (w.searchPg name (i + 1)))).flatten.dedup)

/-- The console events of the pagination check and the page loop. -/
def initEvents (name : String) (tp : Nat) : List Ev :=
  [Ev.evPagFetch name] ++ (List.range tp).map (fun i => Ev.evSearch (i + 1))

/-- The body of `download_pokemon_cards` up to and including the card loop
(lines 124-163): pagination check with early exit on `0` (lines 130-133),
page scraping into a deduplicated sorted URL list (lines 135-143), then the
card loop. -/
def cardPhase (w : World) (fs0 : List String) (name : String) : DlState :=
  let tp := get_total_pages (w.pagination name)
  if tp = 0 then ⟨fs0, 0, [Ev.evPagFetch name, Ev.evNoResults]⟩
  else
    (collectedUrls w name tp).foldl (processCard w)
      ⟨fs0, 0, initEvents name tp⟩

/-- `is_valid_input` (lines 165-167): `re.match(r"^[A-Za-z0-9\- '\.]+$", s)`.
The `$` anchor also accepts a single trailing newline, so the body checked is
the string minus one trailing `'\n'` if present; it must be nonempty and
consist of ASCII letters, digits, dash, space, apostrophe and period. -/
def is_valid_input (s : String) : Bool :=
  let body := if s.data.getLast? == some '\n' then s.data.dropLast else s.data
  !body.isEmpty && body.all (fun c =>
    c.isAlpha || c.isDigit || c == '-' || c == ' ' || c == '\'' || c == '.')

/-- Result of a (possibly nested) run: events, filesystem, this call's
`downloaded` counter, the unconsumed stdin lines, and whether the run aborted
(models `EOFError` from `input()` on an exhausted stream, and the
`RecursionError` of unbounded nesting as fuel exhaustion). -/
structure ProcRes where
  events : List Ev
  fs : List String
  downloaded : Nat
  inputs : List String
  aborted : Bool
  deriving DecidableEq, Repr

mutual

/-- `download_pokemon_cards` run as a script (lines 124-190): the card phase,
then — unless the pagination check returned `0` and the function returned at
line 133 — the locally defined `main()` invoked by the nested
`if __name__ == "__main__"` block (lines 189-190). -/
def runDownloadF (w : World) (argv : List String) :
    Nat → List String → String → List String → ProcRes
  | 0, fs, _, inputs => ⟨[Ev.evFuelOut], fs, 0, inputs, true⟩
  | fuel + 1, fs, name, inputs =>
    let st := cardPhase w fs name
    if get_total_pages (w.pagination name) = 0 then
      ⟨st.events, st.fs, st.downloaded, inputs, false⟩
    else
      let r := runMainLoopF w argv fuel st.fs inputs
      ⟨st.events ++ r.events, r.fs, st.downloaded, r.inputs, r.aborted⟩

/-- The nested `main()` (lines 169-187): first the command-line argument is
re-processed (lines 172-177, with validation), then the interactive while
loop runs. -/
def runMainLoopF (w : World) (argv : List String) :
    Nat → List String → List String → ProcRes
  | 0, fs, inputs => ⟨[Ev.evFuelOut], fs, 0, inputs, true⟩
  | fuel + 1, fs, inputs =>
    match argv.tail.head? with
    | some arg =>
      let nm := pyStrip arg
      if is_valid_input nm then
        let r := runDownloadF w argv fuel fs nm inputs
        if r.aborted then r
        else
          let r2 := whileLoopF w argv fuel r.fs r.inputs
          ⟨r.events ++ r2.events, r2.fs, 0, r2.inputs, r2.aborted⟩
      else
        let r2 := whileLoopF w argv fuel fs inputs
        ⟨Ev.evInvalid nm :: r2.events, r2.fs, 0, r2.inputs, r2.aborted⟩
    | none => whileLoopF w argv fuel fs inputs

/-- The interactive while loop of `main` (lines 179-187): prompt, exit on
blank, re-prompt on invalid input, otherwise recursively run
`download_pokemon_cards` and continue. -/
def whileLoopF (w : World) (argv : List String) :
    Nat → List String → List String → ProcRes
  | 0, fs, inputs => ⟨[Ev.evFuelOut], fs, 0, inputs, true⟩
  | _ + 1, fs, [] => ⟨[Ev.evEOF], fs, 0, [], true⟩
  | fuel + 1, fs, i :: rest =>
    let t := pyStrip i
    if t = "" then ⟨[Ev.evPrompt t, Ev.evExit], fs, 0, rest, false⟩
    else if is_valid_input t then
      let r := runDownloadF w argv fuel fs t rest
      if r.aborted then ⟨Ev.evPrompt t :: r.events, r.fs, 0, r.inputs, true⟩
      else
        let r2 := whileLoopF w argv fuel r.fs r.inputs
        ⟨Ev.evPrompt t :: r.events ++ r2.events, r2.fs, 0, r2.inputs, r2.aborted⟩
    else
      let r2 := whileLoopF w argv fuel fs rest
      ⟨Ev.evPrompt t :: Ev.evInvalid t :: r2.events, r2.fs, 0, r2.inputs, r2.aborted⟩

end

/-- The module-level `if __name__ == "__main__"` block (lines 191-199): with
a command-line argument, `download_pokemon_cards(sys.argv[1])` is called with
no validation; without one, a single prompt is read, a blank answer exits
with status 1, and any other answer is passed — also unvalidated — to
`download_pokemon_cards`. -/
def scriptEntry (w : World) (argv : List String) (fuel : Nat)
    (inputs : List String) : ProcRes :=
  match argv with
  | _ :: name :: _ => runDownloadF w argv fuel [] name inputs
  | _ =>
    match inputs with
    | [] => ⟨[Ev.evEOF], [], 0, [], true⟩
    | i :: rest =>
      let t := pyStrip i
      if t = "" then ⟨[Ev.evPrompt t, Ev.evExit], [], 0, rest, false⟩
      else runDownloadF w argv fuel [] t rest

/-- The card URLs whose detail pages a trace fetched, in order. -/
def fetchedCards (evs : List Ev) : List String :=
  evs.filterMap (fun e =>
    match e with
    | Ev.evFetchCard u => some u
    | _ => none)

/-- How many times the `Complete! Downloaded ...` report of line 163 was
printed in a trace. -/
def countReports (evs : List Ev) : Nat :=
  evs.countP (fun e =>
    match e with
    | Ev.evReport _ => true
    | _ => false)

/-- `totalPages` as the spec's words describe it: "return the maximum page
number observed, defaulting to 1 if no pagination links are found or 0 if the
initial fetch failed". Stated for comparison with `get_total_pages`. -/
def totalPagesClaim (resp : Except String Page) : Nat :=
  match resp with
  | Except.error _ => 0
  | Except.ok page =>
    match observedNums page with
    | [] => 1
    | n :: ns => ns.foldl max n

/-! Concrete fixtures used by witnesses and counterexamples. -/

/-- A parsed page with no links, divs, metas or imgs. -/
def pgEmpty : Page := ⟨[], [], [], []⟩

/-- A detail page whose card container holds a valid image and whose
`og:image` meta names a different URL on the expected domain. -/
def pageC1 : Page :=
  ⟨[], [⟨["card"], [⟨some "https://den-cards.pokellector.com/a/Foo.jpg"⟩]⟩],
    [⟨some "og:image", none, some "https://den-cards.pokellector.com/b/Bar.jpg"⟩],
    []⟩

/-- A detail page with images and metas, none of which reference the expected
hosting domain. -/
def pageC2 : Page :=
  ⟨[], [⟨["card"], [⟨some "https://cdn.example.com/a/Foo.jpg"⟩]⟩],
    [⟨some "og:image", none, some "https://cdn.example.com/b/Bar.jpg"⟩,
     ⟨none, some "image", some "https://cdn.example.com/c/Baz.png"⟩],
    [⟨some "https://cdn.example.com/d/Qux.png"⟩, ⟨none⟩]⟩

/-- A search page whose only link carries the page-number parameter `p=0`. -/
def pageC3 : Page := ⟨[⟨"?p=0"⟩], [], [], []⟩

/-- A search page with links but no pagination parameter. -/
def pageNoP : Page := ⟨[⟨"/foo"⟩, ⟨"/bar?x=1"⟩], [], [], []⟩

/-- A search page with two card links (one duplicated with a fragment) and a
non-matching link. -/
def pageC4 : Page :=
  ⟨[⟨"/Jungle-Expansion/Pikachu-Card-60"⟩, ⟨"/x"⟩,
    ⟨"/Jungle-Expansion/Pikachu-Card-60#prices"⟩,
    ⟨"/Base-Expansion/Pikachu-Card-58"⟩], [], [], []⟩

/-- A detail page whose card container holds a valid image `Foo.jpg`. -/
def cardPgFoo : Page :=
  ⟨[], [⟨["card"], [⟨some "https://den-cards.pokellector.com/a/Foo.jpg"⟩]⟩], [], []⟩

/-- A detail page whose card container holds a valid image `Bar.jpg`. -/
def cardPgBar : Page :=
  ⟨[], [⟨["card"], [⟨some "https://den-cards.pokellector.com/a/Bar.jpg"⟩]⟩], [], []⟩

/-- A fully healthy remote: pagination reports one page, the search page
holds two card links, each detail page resolves to an image, downloads
succeed. -/
def wGood : World :=
  { pagination := fun _ => Except.ok pgEmpty
    searchPg := fun _ _ => Except.ok pageC4
    cardPage := fun u =>
      if u = "https://www.pokellector.com/Jungle-Expansion/Pikachu-Card-60"
      then Except.ok cardPgFoo else Except.ok cardPgBar
    imageResp := fun _ => Except.ok [7] }

/-- A remote whose pagination fetch fails while the search page (with card
links), detail pages and image downloads would all succeed. -/
def wPagDown : World :=
  { pagination := fun _ => Except.error "timeout"
    searchPg := fun _ _ => Except.ok pageC4
    cardPage := fun _ => Except.ok cardPgFoo
    imageResp := fun _ => Except.ok [7] }

/-- A healthy remote with one result page carrying no card links. -/
def wNoCards : World :=
  { pagination := fun _ => Except.ok pgEmpty
    searchPg := fun _ _ => Except.ok pgEmpty
    cardPage := fun _ => Except.ok cardPgFoo
    imageResp := fun _ => Except.ok [7] }

/-- The `src` values (defaulted to `""`) of every img on a page: the
document-wide list scanned by tier 3 together with the imgs inside divs
reachable by tier 1. -/
def allImgSrcs (page : Page) : List String :=
  (page.imgs ++ (page.divs.map (fun d => d.imgs)).flatten).map
    (fun i => i.src?.getD "")

/-- True when a trace contains no interactive prompt and no clean loop exit:
the run never reached `input()` and never took the blank-line break. -/
def noPromptExit (evs : List Ev) : Bool :=
  evs.all (fun e =>
    match e with
    | Ev.evPrompt _ => false
    | Ev.evExit => false
    | _ => true)

/-! Theorems. -/

/-- The head of a list, when present, is a member. -/
theorem mem_of_head?_some {α : Type} {l : List α} {a : α}
    (h : l.head? = some a) : a ∈ l := by
  cases l with
  | nil => simp at h
  | cons x t =>
    simp only [List.head?_cons, Option.some.injEq] at h
    exact h ▸ List.mem_cons_self x t

/-- C1: For every detail page whose parsed markup contains both a
card-container div holding an image that passes the domain-and-extension
check (tier 1 succeeds with URL `u`) and an `og:image` meta tag whose content
`v` is a different URL on the expected domain, `get_card_image_url` returns
the card-container URL `u`: the tiers are tried in order 1, 2, 3 and the
first successful match wins. -/
theorem c1_tier_precedence (page : Page) (u v : String)
    (h1 : tier1 page = some u)
    (hog : (page.metas.find? (fun m => m.prop? == some "og:image")).bind
      (fun m => m.content?) = some v)
    (hdom : domainOk v = true) (hne : v ≠ u) :
    get_card_image_url (Except.ok page) = some u := by
  simp only [get_card_image_url, extractImageURL, h1]

/-- Witness for C1: on `pageC1`, the card-container URL `Foo.jpg` is returned
even though an `og:image` tag names `Bar.jpg` on the same domain. -/
theorem c1_tier_precedence_witness :
    get_card_image_url (Except.ok pageC1) =
      some "https://den-cards.pokellector.com/a/Foo.jpg" :=
  c1_tier_precedence pageC1 "https://den-cards.pokellector.com/a/Foo.jpg"
    "https://den-cards.pokellector.com/b/Bar.jpg"
    (by decide) (by decide) (by decide) (by decide)

/-- Folding a "take the max of the parsed values" step equals folding `max`
over the `filterMap` of the parser. -/
theorem foldl_max_filterMap (f : Anchor → Option Nat) (l : List Anchor) :
    ∀ init : Nat,
      l.foldl (fun mx a =>
        match f a with
        | some n => max mx n
        | none => mx) init = (l.filterMap f).foldl max init := by
  induction l with
  | nil => intro init; rfl
  | cons a t ih =>
    intro init
    cases h : f a <;> simp [List.filterMap_cons, h, ih]

/-- C3 counterexample: on a page whose single link carries `p=0`, the maximum
page number observed across pagination links is `0` (the spec-described
value, `totalPagesClaim`), but `get_total_pages` returns `1`: the fold starts
at `max_page = 1`, so the observed maximum is not always returned. -/
theorem c3_counterexample :
    observedNums pageC3 = [0] ∧
    totalPagesClaim (Except.ok pageC3) = 0 ∧
    get_total_pages (Except.ok pageC3) = 1 := by
  refine ⟨by decide, by decide, by decide⟩

/-- C3 (amended): `get_total_pages` returns `0` if the initial fetch fails;
otherwise it returns the maximum of `1` and every page number observed in
links carrying a page-number parameter (hence the plain maximum whenever some
observed number is at least 1, e.g. links with `p=3` and `p=7` yield `7`),
and returns `1` when no pagination links are present. -/
theorem c3_total_pages (e : String) (page : Page) :
    get_total_pages (Except.error e) = 0 ∧
    get_total_pages (Except.ok page) = (observedNums page).foldl max 1 ∧
    (observedNums page = [] → get_total_pages (Except.ok page) = 1) := by
  refine ⟨rfl, ?_, ?_⟩
  · simp only [get_total_pages, observedNums]
    exact foldl_max_filterMap (fun a => anchorPageNum a.href) page.anchors 1
  · intro h
    simp only [get_total_pages, observedNums] at *
    rw [foldl_max_filterMap (fun a => anchorPageNum a.href) page.anchors 1, h]
    rfl

/-- Witness for C3 (amended): a failed fetch yields 0; the `p=3`/`p=7` page
yields 7; a page without pagination links yields 1. -/
theorem c3_total_pages_witness :
    get_total_pages (Except.error "boom") = 0 ∧
    get_total_pages (Except.ok (⟨[⟨"?p=3"⟩, ⟨"/s?x=1&p=7"⟩], [], [], []⟩ : Page)) = 7 ∧
    get_total_pages (Except.ok pageNoP) = 1 :=
  ⟨(c3_total_pages "boom" pageNoP).1,
   by
    rw [(c3_total_pages "boom" (⟨[⟨"?p=3"⟩, ⟨"/s?x=1&p=7"⟩], [], [], []⟩ : Page)).2.1]
    decide,
   (c3_total_pages "boom" pageNoP).2.2 (by decide)⟩

/-- C10 counterexample: the streamed image-download request of
`download_image` (line 88) does carry an explicit timeout — `timeout=10` —
contradicting the claim that none is applied. -/
theorem c10_counterexample :
    (imageRequest "https://den-cards.pokellector.com/a/Foo.jpg").timeoutSecs ≠
      none ∧
    (imageRequest "https://den-cards.pokellector.com/a/Foo.jpg").timeoutSecs =
      some 10 := by
  refine ⟨by decide, rfl⟩

/-- C10 (amended): the streamed image-download GET issued by `download_image`
applies the same explicit 10-second timeout as the standard page fetches, and
is the only streamed request. -/
theorem c10_stream_timeout (url : String) :
    (imageRequest url).timeoutSecs = some 10 ∧
    (imageRequest url).stream = true ∧
    (pageRequest url).timeoutSecs = some 10 ∧
    (pageRequest url).stream = false :=
  ⟨rfl, rfl, rfl, rfl⟩

/-- C2: For every detail page in which no img `src` and no meta `content`
references the expected image-hosting domain, `get_card_image_url` returns
`none`: all three tiers fail. -/
theorem c2_none_when_no_domain (page : Page)
    (himg : ∀ s ∈ allImgSrcs page, domainOk s = false)
    (hmeta : ∀ m ∈ page.metas, ∀ c, m.content? = some c → domainOk c = false) :
    get_card_image_url (Except.ok page) = none := by
  have t1 : tier1 page = none := by
    unfold tier1
    cases hd : page.divs.find? (fun d => d.classes.contains "card") with
    | none => rfl
    | some d =>
      cases hi : d.imgs.head? with
      | none => simp [hi]
      | some img =>
        have hdm : d ∈ page.divs := List.mem_of_find?_eq_some hd
        have hsrc : img.src?.getD "" ∈ allImgSrcs page := by
          refine List.mem_map.2 ⟨img, ?_, rfl⟩
          refine List.mem_append.2 (Or.inr ?_)
          exact List.mem_flatten.2 ⟨d.imgs, List.mem_map.2 ⟨d, hdm, rfl⟩,
            mem_of_head?_some hi⟩
        simp [hi, himg _ hsrc]
  have hacc : ∀ p : MetaTag → Bool, metaAccept (page.metas.find? p) = none := by
    intro p
    cases hf : page.metas.find? p with
    | none => rfl
    | some m =>
      cases hc : m.content? with
      | none => simp [metaAccept, hc]
      | some c =>
        simp [metaAccept, hc, hmeta _ (List.mem_of_find?_eq_some hf) _ hc]
  have t2 : tier2 page = none := by
    unfold tier2
    simp [hacc]
  have t3 : tier3 page = none := by
    unfold tier3
    cases hf : (page.imgs.map (fun i => i.src?.getD "")).find?
        (fun src => domainOk src && extOk src) with
    | none => rfl
    | some src =>
      have hp := List.find?_some hf
      have hsrc : src ∈ allImgSrcs page := by
        have := List.mem_of_find?_eq_some hf
        rcases List.mem_map.1 this with ⟨i, hi, hieq⟩
        exact List.mem_map.2 ⟨i, List.mem_append.2 (Or.inl hi), hieq⟩
      rw [himg _ hsrc] at hp
      simp at hp
  simp only [get_card_image_url, extractImageURL, t1, t2, t3]

/-- Witness for C2: on `pageC2`, whose images and metas all live on
`cdn.example.com`, extraction returns `none`. -/
theorem c2_none_when_no_domain_witness :
    get_card_image_url (Except.ok pageC2) = none :=
  c2_none_when_no_domain pageC2 (by decide) (by decide)

/-- Anything in the output of one `searchStep` iteration was already
collected or comes from this anchor: a matching href, fragment-stripped and
prefixed. -/
theorem searchStep_sub (acc : List String) (a : Anchor) (u : String)
    (h : u ∈ searchStep acc a) :
    u ∈ acc ∨ (matchesCardHref a.href = true ∧
      u = "https://www.pokellector.com" ++ stripFragment a.href) := by
  unfold searchStep at h
  by_cases hm : matchesCardHref a.href
  · simp only [hm, if_true] at h
    by_cases hc : ("https://www.pokellector.com" ++ stripFragment a.href) ∈ acc
    · simp only [hc, if_true] at h
      exact Or.inl h
    · simp only [hc, if_false] at h
      rcases List.mem_append.1 h with h1 | h1
      · exact Or.inl h1
      · simp at h1
        exact Or.inr ⟨hm, h1⟩
  · simp only [hm] at h
    simp at h
    exact Or.inl h

/-- Everything in the folded search result was already collected or comes
from one of the anchors. -/
theorem mem_foldl_searchStep :
    ∀ (l : List Anchor) (acc : List String) (u : String),
      u ∈ l.foldl searchStep acc →
      u ∈ acc ∨ ∃ a ∈ l, matchesCardHref a.href = true ∧
        u = "https://www.pokellector.com" ++ stripFragment a.href := by
  intro l
  induction l with
  | nil => intro acc u h; exact Or.inl h
  | cons a t ih =>
    intro acc u h
    rcases ih (searchStep acc a) u h with h1 | ⟨b, hb, hmb, hub⟩
    · rcases searchStep_sub acc a u h1 with h2 | ⟨hm, hu⟩
      · exact Or.inl h2
      · exact Or.inr ⟨a, List.mem_cons_self a t, hm, hu⟩
    · exact Or.inr ⟨b, List.mem_cons_of_mem a hb, hmb, hub⟩

/-- `searchStep` preserves distinctness of the collected URLs. -/
theorem nodup_searchStep (acc : List String) (a : Anchor) (h : acc.Nodup) :
    (searchStep acc a).Nodup := by
  unfold searchStep
  by_cases hm : matchesCardHref a.href
  · simp only [hm, if_true]
    by_cases hc : ("https://www.pokellector.com" ++ stripFragment a.href) ∈ acc
    · simp only [hc, if_true]
      exact h
    · simp only [hc, if_false]
      simp [List.nodup_append, h, hc]
  · simp only [hm]
    simp [h]

/-- The folded search result is distinct when the accumulator is. -/
theorem nodup_foldl_searchStep :
    ∀ (l : List Anchor) (acc : List String), acc.Nodup →
      (l.foldl searchStep acc).Nodup := by
  intro l
  induction l with
  | nil => intro acc h; exact h
  | cons a t ih =>
    intro acc h
    exact ih (searchStep acc a) (nodup_searchStep acc a h)

/-- With no matching anchor the fold adds nothing. -/
theorem foldl_searchStep_no_match :
    ∀ (l : List Anchor) (acc : List String),
      (∀ a ∈ l, matchesCardHref a.href = false) → l.foldl searchStep acc = acc := by
  intro l
  induction l with
  | nil => intro acc _; rfl
  | cons a t ih =>
    intro acc h
    have ha : matchesCardHref a.href = false := h a (List.mem_cons_self a t)
    have : searchStep acc a = acc := by unfold searchStep; simp [ha]
    rw [List.foldl_cons, this]
    exact ih acc (fun b hb => h b (List.mem_cons_of_mem a hb))

/-- C4: For every query and page, `search_pokemon_cards` returns only URLs
built from an anchor href matching the card-link shape
`/<segment>-Expansion/<segment>-Card-<rest>` with the fragment stripped and
the site prefix prepended; the result has no duplicates; a failed fetch, or a
page with no matching link, yields `[]` rather than an error. -/
theorem c4_search_links (e : String) (page : Page) :
    search_pokemon_cards (Except.error e) = [] ∧
    (search_pokemon_cards (Except.ok page)).Nodup ∧
    (∀ u ∈ search_pokemon_cards (Except.ok page),
      ∃ a ∈ page.anchors, matchesCardHref a.href = true ∧
        u = "https://www.pokellector.com" ++ stripFragment a.href) ∧
    ((∀ a ∈ page.anchors, matchesCardHref a.href = false) →
      search_pokemon_cards (Except.ok page) = []) := by
  refine ⟨rfl, ?_, ?_, ?_⟩
  · exact nodup_foldl_searchStep page.anchors [] List.nodup_nil
  · intro u hu
    rcases mem_foldl_searchStep page.anchors [] u hu with h | h
    · simp at h
    · exact h
  · intro h
    exact foldl_searchStep_no_match page.anchors [] h

/-- Witness for C4: on `pageC4` the result is exactly the two card URLs (the
fragment duplicate collapsed), each of the required shape, and on a page with
no matching links the result is empty. -/
theorem c4_search_links_witness :
    search_pokemon_cards (Except.ok pageC4) =
      ["https://www.pokellector.com/Jungle-Expansion/Pikachu-Card-60",
       "https://www.pokellector.com/Base-Expansion/Pikachu-Card-58"] ∧
    (search_pokemon_cards (Except.ok pageC4)).Nodup ∧
    search_pokemon_cards (Except.ok pageNoP) = [] :=
  ⟨by decide, (c4_search_links "boom" pageC4).2.1,
    (c4_search_links "boom" pageNoP).2.2.2 (by decide)⟩

/-- `processCard` when extraction finds no image: only a log entry. -/
theorem processCard_none (w : World) (st : DlState) (url : String)
    (h : get_card_image_url (w.cardPage url) = none) :
    processCard w st url = ⟨st.fs, st.downloaded,
      st.events ++ [Ev.evFetchCard url, Ev.evNoImage url,
        Ev.evReport st.downloaded]⟩ := by
  unfold processCard
  rw [h]

/-- `processCard` when the target filename already exists: skip, no image
fetch, no write. -/
theorem processCard_skip (w : World) (st : DlState) (url u : String)
    (h : get_card_image_url (w.cardPage url) = some u)
    (hm : imageFilename u ∈ st.fs) :
    processCard w st url = ⟨st.fs, st.downloaded,
      st.events ++ [Ev.evFetchCard url, Ev.evSkip (imageFilename u),
        Ev.evReport st.downloaded]⟩ := by
  unfold processCard
  rw [h]
  simp [hm]

/-- `processCard` when the filename is new and the download succeeds: the
file is written and the counter incremented. -/
theorem processCard_dl (w : World) (st : DlState) (url u : String)
    (h : get_card_image_url (w.cardPage url) = some u)
    (hm : imageFilename u ∉ st.fs)
    (hdl : (download_image (w.imageResp u) (imageFilename u)).fst = true) :
    processCard w st url = ⟨st.fs ++ [imageFilename u], st.downloaded + 1,
      st.events ++ [Ev.evFetchCard url, Ev.evFetchImage u,
        Ev.evWrote (imageFilename u), Ev.evReport (st.downloaded + 1)]⟩ := by
  unfold processCard
  rw [h]
  simp [hm, hdl]

/-- `processCard` when the filename is new and the download fails: no write,
counter unchanged. -/
theorem processCard_fail (w : World) (st : DlState) (url u : String)
    (h : get_card_image_url (w.cardPage url) = some u)
    (hm : imageFilename u ∉ st.fs)
    (hdl : (download_image (w.imageResp u) (imageFilename u)).fst = false) :
    processCard w st url = ⟨st.fs, st.downloaded,
      st.events ++ [Ev.evFetchCard url, Ev.evFetchImage u,
        Ev.evFailed (imageFilename u), Ev.evReport st.downloaded]⟩ := by
  unfold processCard
  rw [h]
  simp [hm, hdl]

/-- A file present in the directory stays present across one card. -/
theorem processCard_fs_mono (w : World) (st : DlState) (url x : String)
    (h : x ∈ st.fs) : x ∈ (processCard w st url).fs := by
  cases hext : get_card_image_url (w.cardPage url) with
  | none => rw [processCard_none w st url hext]; exact h
  | some u =>
    by_cases hm : imageFilename u ∈ st.fs
    · rw [processCard_skip w st url u hext hm]; exact h
    · by_cases hdl : (download_image (w.imageResp u) (imageFilename u)).fst = true
      · rw [processCard_dl w st url u hext hm hdl]
        exact List.mem_append.2 (Or.inl h)
      · rw [processCard_fail w st url u hext hm (by simpa using hdl)]; exact h

/-- A file present in the directory stays present across the card loop. -/
theorem foldl_fs_mono (w : World) :
    ∀ (urls : List String) (st : DlState) (x : String),
      x ∈ st.fs → x ∈ (urls.foldl (processCard w) st).fs := by
  intro urls
  induction urls with
  | nil => intro st x h; exact h
  | cons a t ih =>
    intro st x h
    exact ih (processCard w st a) x (processCard_fs_mono w st a x h)

/-- After the card loop, every card whose image resolved and whose download
would succeed has its filename in the directory. -/
theorem foldl_fs_success (w : World) :
    ∀ (urls : List String) (st : DlState) (url u : String), url ∈ urls →
      get_card_image_url (w.cardPage url) = some u →
      (download_image (w.imageResp u) (imageFilename u)).fst = true →
      imageFilename u ∈ (urls.foldl (processCard w) st).fs := by
  intro urls
  induction urls with
  | nil => intro st url u h; simp at h
  | cons a t ih =>
    intro st url u hmem hext hdl
    rw [List.foldl_cons]
    rcases List.mem_cons.1 hmem with rfl | hmem'
    · apply foldl_fs_mono
      by_cases hm : imageFilename u ∈ st.fs
      · rw [processCard_skip w st url u hext hm]; exact hm
      · rw [processCard_dl w st url u hext hm hdl]; simp
    · exact ih (processCard w st a) url u hmem' hext hdl

/-- If every successful download's filename is already present, the card loop
changes neither the directory nor the counter. -/
theorem foldl_processCard_stable (w : World) :
    ∀ (urls : List String) (st : DlState),
      (∀ url ∈ urls, ∀ u, get_card_image_url (w.cardPage url) = some u →
        (download_image (w.imageResp u) (imageFilename u)).fst = true →
        imageFilename u ∈ st.fs) →
      (urls.foldl (processCard w) st).fs = st.fs ∧
      (urls.foldl (processCard w) st).downloaded = st.downloaded := by
  intro urls
  induction urls with
  | nil => intro st _; exact ⟨rfl, rfl⟩
  | cons a t ih =>
    intro st h
    have hstep : (processCard w st a).fs = st.fs ∧
        (processCard w st a).downloaded = st.downloaded := by
      cases hext : get_card_image_url (w.cardPage a) with
      | none => rw [processCard_none w st a hext]; exact ⟨rfl, rfl⟩
      | some u =>
        by_cases hm : imageFilename u ∈ st.fs
        · rw [processCard_skip w st a u hext hm]; exact ⟨rfl, rfl⟩
        · by_cases hdl :
              (download_image (w.imageResp u) (imageFilename u)).fst = true
          · exact absurd (h a (List.mem_cons_self a t) u hext hdl) hm
          · rw [processCard_fail w st a u hext hm (by simpa using hdl)]
            exact ⟨rfl, rfl⟩
    have ht := ih (processCard w st a)
      (fun url hu u hext hdl => by
        rw [hstep.1]
        exact h url (List.mem_cons_of_mem a hu) u hext hdl)
    rw [List.foldl_cons]
    exact ⟨ht.1.trans hstep.1, ht.2.trans hstep.2⟩

/-- `cardPhase` in the non-early-exit case. -/
theorem cardPhase_pos (w : World) (fs0 : List String) (name : String)
    (h : ¬ get_total_pages (w.pagination name) = 0) :
    cardPhase w fs0 name =
      (collectedUrls w name (get_total_pages (w.pagination name))).foldl
        (processCard w)
        ⟨fs0, 0, initEvents name (get_total_pages (w.pagination name))⟩ := by
  unfold cardPhase
  simp [h]

/-- C5: a card whose extracted image URL names a file already in the output
directory is skipped — no image fetch, no write, no counter change — and,
consequently, running the orchestrator's card phase a second time against the
same remote state and the directory produced by the first run downloads
nothing new and leaves the directory unchanged. -/
theorem c5_skip_and_idempotent :
    (∀ (w : World) (st : DlState) (url u : String),
      get_card_image_url (w.cardPage url) = some u →
      imageFilename u ∈ st.fs →
      processCard w st url = ⟨st.fs, st.downloaded,
        st.events ++ [Ev.evFetchCard url, Ev.evSkip (imageFilename u),
          Ev.evReport st.downloaded]⟩) ∧
    (∀ (w : World) (fs0 : List String) (name : String),
      (cardPhase w (cardPhase w fs0 name).fs name).downloaded = 0 ∧
      (cardPhase w (cardPhase w fs0 name).fs name).fs =
        (cardPhase w fs0 name).fs) := by
  refine ⟨processCard_skip, ?_⟩
  intro w fs0 name
  by_cases htp : get_total_pages (w.pagination name) = 0
  · unfold cardPhase
    simp [htp]
  · rw [cardPhase_pos w fs0 name htp, cardPhase_pos w _ name htp]
    have hst := foldl_processCard_stable w
      (collectedUrls w name (get_total_pages (w.pagination name)))
      ⟨((collectedUrls w name (get_total_pages (w.pagination name))).foldl
          (processCard w)
          ⟨fs0, 0, initEvents name (get_total_pages (w.pagination name))⟩).fs,
        0, initEvents name (get_total_pages (w.pagination name))⟩
      (fun url hu u hext hdl => foldl_fs_success w _ _ url u hu hext hdl)
    exact ⟨hst.2, hst.1⟩

/-- Witness for C5: on the healthy world `wGood` a skip record is produced
when the file already exists, and a second run of the card phase over the
directory produced by the first downloads zero new images. -/
theorem c5_skip_and_idempotent_witness :
    processCard wGood ⟨["Foo.jpg"], 0, []⟩
        "https://www.pokellector.com/Jungle-Expansion/Pikachu-Card-60" =
      ⟨["Foo.jpg"], 0,
        [Ev.evFetchCard
          "https://www.pokellector.com/Jungle-Expansion/Pikachu-Card-60",
         Ev.evSkip "Foo.jpg", Ev.evReport 0]⟩ ∧
    (cardPhase wGood (cardPhase wGood [] "pikachu").fs "pikachu").downloaded
      = 0 :=
  ⟨c5_skip_and_idempotent.1 wGood ⟨["Foo.jpg"], 0, []⟩
      "https://www.pokellector.com/Jungle-Expansion/Pikachu-Card-60"
      "https://den-cards.pokellector.com/a/Foo.jpg" (by decide) (by decide),
   (c5_skip_and_idempotent.2 wGood [] "pikachu").1⟩

/-- Each card contributes exactly one detail-page fetch to the trace,
whatever the outcome. -/
theorem fetchedCards_processCard (w : World) (st : DlState) (url : String) :
    fetchedCards (processCard w st url).events =
      fetchedCards st.events ++ [url] := by
  cases hext : get_card_image_url (w.cardPage url) with
  | none => rw [processCard_none w st url hext]; simp [fetchedCards]
  | some u =>
    by_cases hm : imageFilename u ∈ st.fs
    · rw [processCard_skip w st url u hext hm]; simp [fetchedCards]
    · by_cases hdl : (download_image (w.imageResp u) (imageFilename u)).fst = true
      · rw [processCard_dl w st url u hext hm hdl]; simp [fetchedCards]
      · rw [processCard_fail w st url u hext hm (by simpa using hdl)]
        simp [fetchedCards]

/-- The card loop fetches every card in its list exactly once, in order,
regardless of per-card failures. -/
theorem fetchedCards_foldl (w : World) :
    ∀ (urls : List String) (st : DlState),
      fetchedCards ((urls.foldl (processCard w) st).events) =
        fetchedCards st.events ++ urls := by
  intro urls
  induction urls with
  | nil => intro st; simp
  | cons a t ih =>
    intro st
    rw [List.foldl_cons, ih (processCard w st a), fetchedCards_processCard]
    simp

/-- C6 (amended): no network failure raises an exception — a failed search
fetch surfaces as `[]`, a failed card-page fetch as `none`, a failed image
fetch as `false` with nothing written, and the card loop still fetches every
card in its list; a failed pagination check, however, surfaces as `0` and
ends the query immediately (no pages scraped, no cards fetched) instead of
continuing. -/
theorem c6_failures_isolated :
    (∀ e : String, search_pokemon_cards (Except.error e) = []) ∧
    (∀ e : String, get_card_image_url (Except.error e) = none) ∧
    (∀ e path : String, download_image (Except.error e) path = (false, none)) ∧
    (∀ (w : World) (urls : List String) (st : DlState),
      fetchedCards ((urls.foldl (processCard w) st).events) =
        fetchedCards st.events ++ urls) ∧
    (∀ (w : World) (fs0 : List String) (name e : String),
      w.pagination name = Except.error e →
      cardPhase w fs0 name =
        ⟨fs0, 0, [Ev.evPagFetch name, Ev.evNoResults]⟩) := by
  refine ⟨fun e => rfl, fun e => rfl, fun e path => rfl, fetchedCards_foldl, ?_⟩
  intro w fs0 name e h
  unfold cardPhase
  rw [h]
  simp [get_total_pages]

/-- Witness for C6 (amended): on `wPagDown` (pagination down, search fine)
the card phase for "pikachu" exits early with only the two log events. -/
theorem c6_failures_isolated_witness :
    cardPhase wPagDown [] "pikachu" =
      ⟨[], 0, [Ev.evPagFetch "pikachu", Ev.evNoResults]⟩ :=
  c6_failures_isolated.2.2.2.2 wPagDown [] "pikachu" "timeout" rfl

/-- C6 counterexample: on `wPagDown` the search page holds card links, yet
the pagination-check failure terminates the run for that query — the trace
shows no page scrape and no card fetch, so the failure is not isolated to its
own unit of work, contradicting the claim that the orchestrator continues
with the remaining pages and cards (and its failure value `0` is none of
`[]`/`none`/`false`). -/
theorem c6_counterexample :
    search_pokemon_cards (wPagDown.searchPg "pikachu" 1) ≠ [] ∧
    (cardPhase wPagDown [] "pikachu").events =
      [Ev.evPagFetch "pikachu", Ev.evNoResults] ∧
    fetchedCards (cardPhase wPagDown [] "pikachu").events = [] := by
  refine ⟨by decide, by decide, by decide⟩

/-- C8: the `Complete! Downloaded ...` report of line 163 sits inside the
per-card `for` loop, so on the healthy two-card world it is printed twice (and
the claim's "exactly once, after processing all unique card URLs" fails),
while on a zero-card run it is never printed at all; the final printed count
does equal the number of newly downloaded images. -/
theorem c8_report_inside_loop :
    countReports (cardPhase wGood [] "pikachu").events = 2 ∧
    (cardPhase wGood [] "pikachu").downloaded = 2 ∧
    (cardPhase wGood [] "pikachu").events.getLast? = some (Ev.evReport 2) ∧
    countReports (cardPhase wNoCards [] "pikachu").events = 0 := by
  refine ⟨by decide, by decide, by decide, by decide⟩

/-- One card step only appends to the trace. -/
theorem processCard_events_mono (w : World) (st : DlState) (url : String)
    (e : Ev) (h : e ∈ st.events) : e ∈ (processCard w st url).events := by
  cases hext : get_card_image_url (w.cardPage url) with
  | none =>
    rw [processCard_none w st url hext]
    exact List.mem_append.2 (Or.inl h)
  | some u =>
    by_cases hm : imageFilename u ∈ st.fs
    · rw [processCard_skip w st url u hext hm]
      exact List.mem_append.2 (Or.inl h)
    · by_cases hdl : (download_image (w.imageResp u) (imageFilename u)).fst = true
      · rw [processCard_dl w st url u hext hm hdl]
        exact List.mem_append.2 (Or.inl h)
      · rw [processCard_fail w st url u hext hm (by simpa using hdl)]
        exact List.mem_append.2 (Or.inl h)

/-- The card loop only appends to the trace. -/
theorem foldl_events_mono (w : World) :
    ∀ (urls : List String) (st : DlState) (e : Ev),
      e ∈ st.events → e ∈ ((urls.foldl (processCard w) st).events) := by
  intro urls
  induction urls with
  | nil => intro st e h; exact h
  | cons a t ih =>
    intro st e h
    exact ih (processCard w st a) e (processCard_events_mono w st a e h)

/-- Every card phase logs its pagination fetch. -/
theorem evPagFetch_mem_cardPhase (w : World) (fs : List String)
    (name : String) :
    Ev.evPagFetch name ∈ (cardPhase w fs name).events := by
  by_cases htp : get_total_pages (w.pagination name) = 0
  · unfold cardPhase
    simp [htp]
  · rw [cardPhase_pos w fs name htp]
    exact foldl_events_mono w _ ⟨fs, 0, initEvents name _⟩ _
      (by simp [initEvents])

/-- Every (fueled) `download_pokemon_cards` call logs its pagination fetch,
whatever the outcome. -/
theorem runDownloadF_pagfetch (w : World) (argv : List String) (f : Nat)
    (fs : List String) (name : String) (inputs : List String) :
    Ev.evPagFetch name ∈
      (runDownloadF w argv (f + 1) fs name inputs).events := by
  rw [runDownloadF]
  by_cases htp : get_total_pages (w.pagination name) = 0
  · simp only [htp, if_true]
    exact evPagFetch_mem_cardPhase w fs name
  · simp only [htp, if_false]
    exact List.mem_append.2 (Or.inl (evPagFetch_mem_cardPhase w fs name))

/-- C7 counterexample: the module-level entry (lines 191-199) performs no
validation, so with command line `scraper.py "pika@chu"` the invalid name —
`is_valid_input` rejects it — still triggers the pagination network request
before anything else. -/
theorem c7_counterexample :
    is_valid_input "pika@chu" = false ∧
    Ev.evPagFetch "pika@chu" ∈
      (scriptEntry wPagDown ["scraper.py", "pika@chu"] 5 []).events := by
  refine ⟨by decide, by decide⟩

/-- C7 (amended): a name entered at the nested interactive prompt that fails
`is_valid_input` is rejected on the spot — the loop logs `Invalid input`,
performs no network request for it, and re-prompts on the remaining input —
but the module-level entry passes its name (command-line or initial prompt)
to `download_pokemon_cards` unvalidated, so that name is always fetched. -/
theorem c7_validation (w : World) (argv : List String) (f : Nat)
    (fs : List String) (i : String) (rest : List String)
    (h1 : pyStrip i ≠ "") (h2 : is_valid_input (pyStrip i) = false) :
    whileLoopF w argv (f + 1) fs (i :: rest) =
      ⟨Ev.evPrompt (pyStrip i) :: Ev.evInvalid (pyStrip i) ::
          (whileLoopF w argv f fs rest).events,
        (whileLoopF w argv f fs rest).fs, 0,
        (whileLoopF w argv f fs rest).inputs,
        (whileLoopF w argv f fs rest).aborted⟩ ∧
    (∀ (p name : String) (t inputs : List String),
      Ev.evPagFetch name ∈
        (scriptEntry w (p :: name :: t) (f + 1) inputs).events) := by
  constructor
  · rw [whileLoopF]
    simp [h1, h2]
  · intro p name t inputs
    exact runDownloadF_pagfetch w (p :: name :: t) f [] name inputs

/-- Witness for C7 (amended): `pika@chu` typed at the prompt is rejected with
no network event, while the same name on the command line is fetched. -/
theorem c7_validation_witness :
    whileLoopF wPagDown ["scraper.py"] 2 [] ["pika@chu", ""] =
      ⟨[Ev.evPrompt "pika@chu", Ev.evInvalid "pika@chu", Ev.evPrompt "",
        Ev.evExit], [], 0, [], false⟩ ∧
    Ev.evPagFetch "pika@chu" ∈
      (scriptEntry wPagDown ["scraper.py", "pika@chu"] 2 []).events := by
  have h := c7_validation wPagDown ["scraper.py"] 1 [] "pika@chu" [""]
    (by decide) (by decide)
  exact ⟨by rw [h.1]; decide, h.2 "scraper.py" "pika@chu" [] []⟩

/-- A `download_pokemon_cards` call with nonzero pagination, run as a script:
the card phase followed by the nested `main`, which with a short `argv` is
just the interactive while loop (two fuel levels below). -/
theorem runDownload_interactive (w : World) (p : String) (f : Nat)
    (fs : List String) (name : String) (inputs : List String)
    (htp : get_total_pages (w.pagination name) ≠ 0) :
    runDownloadF w [p] (f + 2) fs name inputs =
      ⟨(cardPhase w fs name).events ++
          (whileLoopF w [p] f (cardPhase w fs name).fs inputs).events,
        (whileLoopF w [p] f (cardPhase w fs name).fs inputs).fs,
        (cardPhase w fs name).downloaded,
        (whileLoopF w [p] f (cardPhase w fs name).fs inputs).inputs,
        (whileLoopF w [p] f (cardPhase w fs name).fs inputs).aborted⟩ := by
  rw [runDownloadF]
  simp only [htp, if_false]
  rw [runMainLoopF]
  rfl

/-- On a stream of blank lines the while loop exits at once, consuming one
blank. -/
theorem whileLoop_blanks (w : World) (argv : List String) (f : Nat)
    (fs : List String) (k : Nat) (hk : 1 ≤ k) :
    whileLoopF w argv (f + 1) fs (List.replicate k "") =
      ⟨[Ev.evPrompt "", Ev.evExit], fs, 0, List.replicate (k - 1) "", false⟩ := by
  cases k with
  | zero => omega
  | succ k' =>
    rw [List.replicate_succ, whileLoopF]
    simp [show pyStrip "" = "" from rfl]

/-- One valid nonblank query at the prompt, with nonzero pagination: the
query's download runs (card phase, then its nested main on the remaining
input), and afterwards the outer loop continues on what that call left
unconsumed. -/
theorem whileLoop_query (w : World) (p : String) (f : Nat)
    (fs : List String) (q : String) (rest : List String)
    (h1 : pyStrip q ≠ "") (h2 : is_valid_input (pyStrip q) = true)
    (htp : get_total_pages (w.pagination (pyStrip q)) ≠ 0)
    (hab : (whileLoopF w [p] f
      (cardPhase w fs (pyStrip q)).fs rest).aborted = false) :
    whileLoopF w [p] (f + 3) fs (q :: rest) =
      ⟨Ev.evPrompt (pyStrip q) ::
          ((cardPhase w fs (pyStrip q)).events ++
            (whileLoopF w [p] f (cardPhase w fs (pyStrip q)).fs rest).events) ++
          (whileLoopF w [p] (f + 2)
            (whileLoopF w [p] f (cardPhase w fs (pyStrip q)).fs rest).fs
            (whileLoopF w [p] f (cardPhase w fs (pyStrip q)).fs rest).inputs).events,
        (whileLoopF w [p] (f + 2)
          (whileLoopF w [p] f (cardPhase w fs (pyStrip q)).fs rest).fs
          (whileLoopF w [p] f (cardPhase w fs (pyStrip q)).fs rest).inputs).fs,
        0,
        (whileLoopF w [p] (f + 2)
          (whileLoopF w [p] f (cardPhase w fs (pyStrip q)).fs rest).fs
          (whileLoopF w [p] f (cardPhase w fs (pyStrip q)).fs rest).inputs).inputs,
        (whileLoopF w [p] (f + 2)
          (whileLoopF w [p] f (cardPhase w fs (pyStrip q)).fs rest).fs
          (whileLoopF w [p] f (cardPhase w fs (pyStrip q)).fs rest).inputs).aborted⟩ := by
  rw [whileLoopF]
  simp only [h1, h2, if_true, if_false]
  rw [runDownload_interactive w p f fs (pyStrip q) rest htp]
  simp only [hab, if_false]
  simp [List.append_assoc]

/-- Interactive script session: a stream of valid nonblank queries (each with
nonzero pagination) followed by enough blank lines is fully processed — the
loop prompts for every query, never aborts, and consumes exactly one blank
per nesting level. -/
theorem whileLoop_clean (w : World) (p : String) :
    ∀ (qs : List String) (k f : Nat) (fs : List String),
      qs.length + 1 ≤ k → 3 * qs.length + k + 1 ≤ f →
      (∀ q ∈ qs, pyStrip q ≠ "" ∧ is_valid_input (pyStrip q) = true ∧
        get_total_pages (w.pagination (pyStrip q)) ≠ 0) →
      (whileLoopF w [p] f fs (qs ++ List.replicate k "")).inputs =
          List.replicate (k - qs.length - 1) "" ∧
      (whileLoopF w [p] f fs (qs ++ List.replicate k "")).aborted = false ∧
      ∀ q ∈ qs, Ev.evPrompt (pyStrip q) ∈
        (whileLoopF w [p] f fs (qs ++ List.replicate k "")).events := by
  intro qs
  induction qs with
  | nil =>
    intro k f fs hk hf hq
    obtain ⟨f', rfl⟩ : ∃ f', f = f' + 1 := ⟨f - 1, by omega⟩
    rw [List.nil_append, whileLoop_blanks w [p] f' fs k (by omega)]
    exact ⟨rfl, rfl, by simp⟩
  | cons q qs' ih =>
    intro k f fs hk hf hq
    obtain ⟨f3, rfl⟩ : ∃ f3, f = f3 + 3 :=
      ⟨f - 3, by simp only [List.length_cons] at hf hk; omega⟩
    have hqh := hq q (List.mem_cons_self q qs')
    have hinner := ih k f3 (cardPhase w fs (pyStrip q)).fs
      (by simp only [List.length_cons] at hk; omega)
      (by simp only [List.length_cons] at hf; omega)
      (fun r hr => hq r (List.mem_cons_of_mem q hr))
    rw [List.cons_append,
      whileLoop_query w p f3 fs q (qs' ++ List.replicate k "")
        hqh.1 hqh.2.1 hqh.2.2 hinner.2.1,
      hinner.1,
      show f3 + 2 = f3 + 1 + 1 from rfl,
      whileLoop_blanks w [p] (f3 + 1) _ (k - qs'.length - 1)
        (by simp only [List.length_cons] at hk; omega)]
    refine ⟨?_, rfl, ?_⟩
    · have harith : k - qs'.length - 1 - 1 = k - (q :: qs').length - 1 := by
        simp
        omega
      rw [harith]
    · intro r hr
      rcases List.mem_cons.1 hr with rfl | hr'
      · exact List.mem_cons_self _ _
      · refine List.mem_cons_of_mem _ ?_
        refine List.mem_append.2 (Or.inl ?_)
        exact List.mem_append.2 (Or.inr (hinner.2.2 r hr'))

/-- On the no-cards world the card phase is just the two scrape log events:
one result page, no card links. -/
theorem cardPhase_wNoCards (fs : List String) (name : String) :
    cardPhase wNoCards fs name =
      ⟨fs, 0, [Ev.evPagFetch name, Ev.evSearch 1]⟩ := rfl

/-- `noPromptExit` distributes over trace concatenation. -/
theorem noPromptExit_append (a b : List Ev) :
    noPromptExit (a ++ b) = (noPromptExit a && noPromptExit b) := by
  simp [noPromptExit]

/-- The argv branch of the nested `main`: with a second command-line entry
that validates, `main` first re-runs `download_pokemon_cards` on it, and when
that inner call aborts, `main`'s result is the inner call's result. -/
theorem runMainLoopF_argv_step (w : World) (p a : String) (t : List String)
    (f : Nat) (fs inputs : List String)
    (hv : is_valid_input (pyStrip a) = true)
    (hab : (runDownloadF w (p :: a :: t) f fs (pyStrip a) inputs).aborted
      = true) :
    runMainLoopF w (p :: a :: t) (f + 1) fs inputs =
      runDownloadF w (p :: a :: t) f fs (pyStrip a) inputs := by
  rw [runMainLoopF]
  simp [hv, hab]

/-- With a command-line argument naming a valid query with nonzero pages,
every nested `main` re-invokes `download_pokemon_cards` on that argument
before its prompt, so at every fuel the run exhausts its fuel without
consuming any input, without prompting, and without a clean exit: the
recursion never returns. -/
theorem argvStuck (f : Nat) :
    (∀ (fs : List String) (nm : String) (inputs : List String),
      (runDownloadF wNoCards ["scraper.py", "Pikachu"] f fs nm inputs).aborted
          = true ∧
      (runDownloadF wNoCards ["scraper.py", "Pikachu"] f fs nm inputs).inputs
          = inputs ∧
      noPromptExit
        (runDownloadF wNoCards ["scraper.py", "Pikachu"] f fs nm inputs).events
          = true) ∧
    (∀ (fs : List String) (inputs : List String),
      (runMainLoopF wNoCards ["scraper.py", "Pikachu"] f fs inputs).aborted
          = true ∧
      (runMainLoopF wNoCards ["scraper.py", "Pikachu"] f fs inputs).inputs
          = inputs ∧
      noPromptExit
        (runMainLoopF wNoCards ["scraper.py", "Pikachu"] f fs inputs).events
          = true) := by
  induction f with
  | zero =>
    exact ⟨fun fs nm inputs => ⟨rfl, rfl, rfl⟩,
      fun fs inputs => ⟨rfl, rfl, rfl⟩⟩
  | succ f ih =>
    constructor
    · intro fs nm inputs
      rw [runDownloadF]
      have h1 : ¬ get_total_pages (wNoCards.pagination nm) = 0 :=
        Nat.one_ne_zero
      simp only [h1, if_false]
      obtain ⟨hab, hin, hnp⟩ := ih.2 fs inputs
      refine ⟨hab, hin, ?_⟩
      show noPromptExit ((cardPhase wNoCards fs nm).events ++
        (runMainLoopF wNoCards ["scraper.py", "Pikachu"] f
          (cardPhase wNoCards fs nm).fs inputs).events) = true
      rw [noPromptExit_append,
        show (cardPhase wNoCards fs nm).events
          = [Ev.evPagFetch nm, Ev.evSearch 1] from rfl,
        show (cardPhase wNoCards fs nm).fs = fs from rfl,
        show noPromptExit [Ev.evPagFetch nm, Ev.evSearch 1] = true from rfl,
        hnp]
      rfl
    · intro fs inputs
      obtain ⟨hab, hin, hnp⟩ := ih.1 fs "Pikachu" inputs
      rw [runMainLoopF_argv_step wNoCards "scraper.py" "Pikachu" [] f fs
        inputs rfl hab]
      exact ⟨hab, hin, hnp⟩

/-- C9 counterexample: run as `scraper.py Pikachu` against a healthy remote
with one empty result page, `download_pokemon_cards("Pikachu")` executes the
nested `main`, whose argv branch immediately re-invokes
`download_pokemon_cards("Pikachu")` — at fuel 12 with blank lines available
at both levels the call has consumed no input, never prompted for a further
name, never taken the blank-line exit, and aborted (the recursion never
returns), so the nested loop is not the prompt-driven loop the claim
describes. -/
theorem c9_counterexample :
    is_valid_input "Pikachu" = true ∧
    get_total_pages (wNoCards.pagination "Pikachu") ≠ 0 ∧
    (runDownloadF wNoCards ["scraper.py", "Pikachu"] 12 [] "Pikachu"
      ["", ""]).aborted = true ∧
    (runDownloadF wNoCards ["scraper.py", "Pikachu"] 12 [] "Pikachu"
      ["", ""]).inputs = ["", ""] ∧
    noPromptExit (runDownloadF wNoCards ["scraper.py", "Pikachu"] 12 []
      "Pikachu" ["", ""]).events = true :=
  ⟨by decide, by decide, ((argvStuck 12).1 [] "Pikachu" ["", ""]).1,
    ((argvStuck 12).1 [] "Pikachu" ["", ""]).2.1,
    ((argvStuck 12).1 [] "Pikachu" ["", ""]).2.2⟩

/-- C9 (amended): when run as a script, every `download_pokemon_cards` call
whose pagination check is nonzero executes the locally defined `main` after
its card loop, and its result is that of the nested loop; when no
command-line argument is present, `main` is the interactive prompt loop:
a stream of valid nonblank queries (each with nonzero pagination) followed by
one blank line per nesting level is fully processed — the call prompts for
and downloads every query, consumes the whole stream, and only then returns.
With a command-line argument naming a valid nonzero-page query, however, each
nested `main` first re-invokes `download_pokemon_cards` on that argument and
the recursion never reaches the prompt. -/
theorem c9_nested_main :
    (∀ (w : World) (argv : List String) (f : Nat) (fs : List String)
        (name : String) (inputs : List String),
      get_total_pages (w.pagination name) ≠ 0 →
      runDownloadF w argv (f + 1) fs name inputs =
        ⟨(cardPhase w fs name).events ++
            (runMainLoopF w argv f (cardPhase w fs name).fs inputs).events,
          (runMainLoopF w argv f (cardPhase w fs name).fs inputs).fs,
          (cardPhase w fs name).downloaded,
          (runMainLoopF w argv f (cardPhase w fs name).fs inputs).inputs,
          (runMainLoopF w argv f (cardPhase w fs name).fs inputs).aborted⟩) ∧
    (∀ (w : World) (p name : String) (f : Nat) (fs : List String)
        (qs : List String),
      get_total_pages (w.pagination name) ≠ 0 →
      (∀ q ∈ qs, pyStrip q ≠ "" ∧ is_valid_input (pyStrip q) = true ∧
        get_total_pages (w.pagination (pyStrip q)) ≠ 0) →
      4 * qs.length + 4 ≤ f →
      (runDownloadF w [p] f fs name
        (qs ++ List.replicate (qs.length + 1) "")).inputs = [] ∧
      (runDownloadF w [p] f fs name
        (qs ++ List.replicate (qs.length + 1) "")).aborted = false ∧
      ∀ q ∈ qs, Ev.evPrompt (pyStrip q) ∈
        (runDownloadF w [p] f fs name
          (qs ++ List.replicate (qs.length + 1) "")).events) := by
  constructor
  · intro w argv f fs name inputs htp
    rw [runDownloadF]
    simp only [htp, if_false]
  · intro w p name f fs qs htp hqs hf
    obtain ⟨g, rfl⟩ : ∃ g, f = g + 2 := ⟨f - 2, by omega⟩
    rw [runDownload_interactive w p g fs name _ htp]
    have hc := whileLoop_clean w p qs (qs.length + 1) g (cardPhase w fs name).fs
      (le_refl _) (by omega) hqs
    refine ⟨?_, ?_, ?_⟩
    · show (whileLoopF w [p] g (cardPhase w fs name).fs
        (qs ++ List.replicate (qs.length + 1) "")).inputs = []
      rw [hc.1]
      simp
    · exact hc.2.1
    · intro q hq
      show Ev.evPrompt (pyStrip q) ∈
        (cardPhase w fs name).events ++
          (whileLoopF w [p] g (cardPhase w fs name).fs
            (qs ++ List.replicate (qs.length + 1) "")).events
      exact List.mem_append.2 (Or.inr (hc.2.2 q hq))

/-- Witness for C9 (amended): an interactive session — no command-line name —
downloads "pikachu", then processes the typed query "Eevee", and exits
cleanly on the blank lines, consuming the whole input stream. -/
theorem c9_nested_main_witness :
    (runDownloadF wGood ["scraper.py"] 8 [] "pikachu"
      (["Eevee"] ++ List.replicate 2 "")).inputs = [] ∧
    (runDownloadF wGood ["scraper.py"] 8 [] "pikachu"
      (["Eevee"] ++ List.replicate 2 "")).aborted = false ∧
    Ev.evPrompt "Eevee" ∈ (runDownloadF wGood ["scraper.py"] 8 [] "pikachu"
      (["Eevee"] ++ List.replicate 2 "")).events :=
  have h := c9_nested_main.2 wGood "scraper.py" "pikachu" 8 [] ["Eevee"]
    (by decide) (by decide) (by decide)
  ⟨h.1, h.2.1, h.2.2 "Eevee" (by decide)⟩
